import Mathlib

set_option maxRecDepth 40000

/-!
Verification of the `bridget-portfolio` repository: an Eleventy site build
configuration (three historical variants) and a quality-gates bootstrap
shell script (`set -e`; installs dev dependencies, writes tool configs,
merges command aliases into `package.json`, installs a pre-commit hook,
and writes a GitHub Actions workflow).

The shell script is embedded as a straight-line state transformer over a
small filesystem model; the `node` heredoc that merges `package.json`
scripts is embedded as a pure function on a manifest model; the generated
workflow is embedded structurally together with the relevant GitHub
Actions gating semantics.
-/

namespace Portfolio

/-! ## Filesystem model -/

/-- First-occurrence lookup in an association list keyed by strings (the
same access discipline as a filesystem path table or a JavaScript object
with unique keys). -/
def lookupKey {α : Type} (k : String) : List (String × α) → Option α
  | [] => none
  | (q, v) :: rest => if q = k then some v else lookupKey k rest

/-- Content of a file. `package.json` is the one file the script parses, so
its content is modelled structurally (`manifest`); every other file is an
uninterpreted text blob. -/
inductive FileData where
  | text (s : String)
  | manifest (scripts : Option (List (String × String)))
      (others : List (String × String))
deriving DecidableEq, Repr

/-- A file: its data plus the executable permission bit. -/
structure File where
  data : FileData
  exec : Bool
deriving DecidableEq, Repr

/-- A filesystem: an association list from path to file (paths unique in
well-formed states; all operations act on the first occurrence). -/
abbrev FS := List (String × File)

/-- Does a file exist at `p`? -/
def hasFile (fs : FS) (p : String) : Bool :=
  (lookupKey p fs).isSome

/-- Effect of `cat > p`: truncate and rewrite the file's data. An existing
file keeps its permission bits; a fresh file is created non-executable. -/
def fsWrite : FS → String → FileData → FS
  | [], p, d => [(p, ⟨d, false⟩)]
  | (q, f) :: rest, p, d =>
      if q = p then (p, ⟨d, f.exec⟩) :: rest else (q, f) :: fsWrite rest p d

/-- Effect of `chmod +x p`: set the executable bit of the file at `p`. -/
def fsChmodX : FS → String → FS
  | [], _ => []
  | (q, f) :: rest, p =>
      if q = p then (p, ⟨f.data, true⟩) :: rest else (q, f) :: fsChmodX rest p

/-- Executable bit currently stored at `p` (false if the file is absent);
this is what `cat > p` preserves. -/
def fileExec (fs : FS) (p : String) : Bool :=
  ((lookupKey p fs).map File.exec).getD false

/-! ## The `node` heredoc: merging command aliases into `package.json`

Embedding of the script's step 7 (`node << 'NODE' ... NODE`): the heredoc
reads `package.json`, sets `pkg.scripts = pkg.scripts || {}`, then for
each of ten fixed aliases assigns a default command string when the
current value is JavaScript-falsy (absent, or — for string-valued
entries — the empty string), and writes the manifest back.  Scripts are
modelled as an association list of string pairs preserving JSON key
order. -/

/-- Assignment `pkg.scripts.k = v` on an existing-or-fresh key: replace
the (first) binding of `k` in place, or append a new binding at the end
(JavaScript object insertion-order semantics). -/
def setScript : List (String × String) → String → String → List (String × String)
  | [], k, v => [(k, v)]
  | (q, w) :: rest, k, v =>
      if q = k then (k, v) :: rest else (q, w) :: setScript rest k v

/-- One defaulting statement of the heredoc,
`if (!pkg.scripts.k) pkg.scripts.k = v` or equivalently
`pkg.scripts.k = pkg.scripts.k || v`: assign `v` exactly when the current
value of `k` is falsy, i.e. the key is absent or bound to `""`. -/
def mergeScript (l : List (String × String)) (kv : String × String) :
    List (String × String) :=
  match lookupKey kv.1 l with
  | some s => if s = "" then setScript l kv.1 kv.2 else l
  | none => l ++ [(kv.1, kv.2)]

/-- The ten alias/default pairs of the heredoc, in source order. -/
def defaultScripts : List (String × String) :=
  [ ("dev", "npx eleventy --serve --quiet"),
    ("build", "ELEVENTY_ENV=production npx eleventy"),
    ("format", "prettier --write \"**/*.\x7bjs,jsx,ts,tsx,css,scss,md,json,njk,html\x7d\""),
    ("format:check", "prettier --check \"**/*.\x7bjs,jsx,ts,tsx,css,scss,md,json,njk,html\x7d\""),
    ("lint:js", "eslint ."),
    ("lint:css", "stylelint \"src/**/*.css\""),
    ("lint", "npm run lint:js && npm run lint:css"),
    ("precommit", "npm run format:check && npm run lint"),
    ("lhci", "lhci autorun"),
    ("prepare", "husky install") ]

/-- The heredoc's whole effect on the `scripts` object: apply the ten
defaulting statements in order. -/
def applyDefaults (l : List (String × String)) : List (String × String) :=
  defaultScripts.foldl mergeScript l

/-- The heredoc's whole effect on the manifest:
`pkg.scripts = pkg.scripts || {}` followed by the ten defaulting
statements; every other top-level field is carried through untouched. -/
def updateScripts : FileData → FileData
  | .manifest scripts others =>
      .manifest (some (applyDefaults (scripts.getD []))) others
  | .text s => .text s

/-! ## Fixed file contents and progress messages of the script

Heredoc contents are transcribed line by line; `linesOf` joins them with
the trailing newline each heredoc line carries. -/

/-- Join lines into a file body, each line terminated by a newline. -/
def linesOf (ls : List String) : String :=
  String.join (ls.map (fun s => s ++ "\n"))

def headerMsg : String := "=== Quality Gates Setup Script ==="

def noPkgMsg : String :=
  "No package.json found. Run \x27npm init -y\x27 first, then rerun this script."

def installMsg : String :=
  "Installing dev dependencies (Prettier, ESLint, Stylelint, Husky, Lighthouse CI)..."

def prettierMsg : String := "Creating .prettierrc and .prettierignore..."

def eslintMsg : String := "Creating .eslintrc.cjs and .eslintignore..."

def stylelintMsg : String := "Creating .stylelintrc.json and .stylelintignore..."

def lighthouseMsg : String := "Creating lighthouserc.json..."

def pkgScriptsMsg : String := "Updating package.json scripts..."

def huskyMsg : String := "Setting up Husky pre-commit hook..."

def workflowMsg : String :=
  "Creating GitHub Actions workflow (.github/workflows/ci-cd.yml)..."

/-- The closing `echo` block of the script, in order. -/
def doneMsgs : List String :=
  [ "=== Done. Quality gates are configured. ===",
    "You now have:",
    "  - Prettier (.prettierrc, .prettierignore)",
    "  - ESLint (.eslintrc.cjs, .eslintignore)",
    "  - Stylelint (.stylelintrc.json, .stylelintignore)",
    "  - Husky pre-commit hook (runs format:check + lint)",
    "  - Lighthouse CI (lighthouserc.json)",
    "  - GitHub Actions CI/CD (.github/workflows/ci-cd.yml)",
    "",
    "Try: npm run format:check, npm run lint, npm run build",
    "Then commit and push to see CI run on GitHub." ]

def prettierrcContent : String := linesOf
  [ "\x7b",
    "  \"printWidth\": 80,",
    "  \"singleQuote\": true,",
    "  \"trailingComma\": \"es5\",",
    "  \"semi\": true,",
    "  \"tabWidth\": 2",
    "\x7d" ]

def prettierignoreContent : String := linesOf
  [ "node_modules", "_site", "dist", "coverage", ".build", ".cache",
    "*.min.js" ]

def eslintrcCjsContent : String := linesOf
  [ "/** @type \x7bimport(\x27eslint\x27).Linter.Config\x7d */",
    "module.exports = \x7b",
    "  env: \x7b",
    "    browser: true,",
    "    es2021: true,",
    "    node: true",
    "  \x7d,",
    "  extends: [\x27eslint:recommended\x27],",
    "  parserOptions: \x7b",
    "    ecmaVersion: \x27latest\x27,",
    "    sourceType: \x27module\x27",
    "  \x7d,",
    "  rules: \x7b",
    "    \x27no-unused-vars\x27: [\x27warn\x27, \x7b argsIgnorePattern: \x27^_\x27 \x7d],",
    "    \x27no-undef\x27: \x27error\x27,",
    "    \x27no-console\x27: \x27off\x27",
    "  \x7d,",
    "  ignorePatterns: [\x27_site/**\x27, \x27dist/**\x27, \x27node_modules/**\x27]",
    "\x7d;" ]

def eslintignoreContent : String := linesOf
  [ "node_modules", "_site", "dist", "coverage" ]

def stylelintrcContent : String := linesOf
  [ "\x7b",
    "  \"extends\": [\"stylelint-config-standard\"],",
    "  \"rules\": \x7b",
    "    \"color-hex-case\": \"lower\",",
    "    \"color-hex-length\": \"short\",",
    "    \"block-no-empty\": true,",
    "    \"declaration-block-no-duplicate-properties\": true,",
    "    \"no-descending-specificity\": null",
    "  \x7d",
    "\x7d" ]

def stylelintignoreContent : String := linesOf
  [ "node_modules", "_site", "dist" ]

def lighthousercContent : String := linesOf
  [ "\x7b",
    "  \"ci\": \x7b",
    "    \"collect\": \x7b",
    "      \"staticDistDir\": \"_site\"",
    "    \x7d,",
    "    \"assert\": \x7b",
    "      \"assertions\": \x7b",
    "        \"categories:performance\": [\"warn\", \x7b \"minScore\": 0.9 \x7d],",
    "        \"categories:accessibility\": [\"warn\", \x7b \"minScore\": 0.9 \x7d],",
    "        \"categories:best-practices\": [\"warn\", \x7b \"minScore\": 0.9 \x7d],",
    "        \"categories:seo\": [\"warn\", \x7b \"minScore\": 0.9 \x7d]",
    "      \x7d",
    "    \x7d",
    "  \x7d",
    "\x7d" ]

/-- The hook body the fallback branch writes to `.husky/pre-commit`. -/
def fallbackHookContent : String := linesOf
  [ "#!/bin/sh",
    ". \"$(dirname \"$0\")/_/husky.sh\"",
    "",
    "npm run precommit" ]

/-- The generated GitHub Actions workflow text, line for line. -/
def ciCdYmlContent : String := linesOf
  [ "name: CI/CD",
    "",
    "on:",
    "  push:",
    "    branches: [ main ]",
    "  pull_request:",
    "",
    "jobs:",
    "  build-and-test:",
    "    runs-on: ubuntu-latest",
    "",
    "    steps:",
    "      - name: Checkout",
    "        uses: actions/checkout@v4",
    "",
    "      - name: Use Node.js",
    "        uses: actions/setup-node@v4",
    "        with:",
    "          node-version: 20",
    "          cache: npm",
    "",
    "      - name: Install dependencies",
    "        run: npm ci",
    "",
    "      - name: Check formatting (Prettier)",
    "        run: npm run format:check",
    "",
    "      - name: Run linters",
    "        run: npm run lint",
    "",
    "      - name: Build Eleventy site",
    "        run: npm run build",
    "",
    "      - name: Lighthouse CI",
    "        run: npm run lhci || echo \"Lighthouse warnings â€“ check reports\"",
    "",
    "  deploy:",
    "    needs: build-and-test",
    "    if: github.ref == \x27refs/heads/main\x27",
    "    runs-on: ubuntu-latest",
    "",
    "    steps:",
    "      - name: Checkout",
    "        uses: actions/checkout@v4",
    "",
    "      - name: Use Node.js",
    "        uses: actions/setup-node@v4",
    "        with:",
    "          node-version: 20",
    "          cache: npm",
    "",
    "      - name: Install dependencies",
    "        run: npm ci",
    "",
    "      - name: Build Eleventy site",
    "        run: npm run build",
    "",
    "      - name: Deploy to GitHub Pages",
    "        uses: peaceiris/actions-gh-pages@v4",
    "        with:",
    "          github_token: $\x7b\x7b secrets.GITHUB_TOKEN \x7d\x7d",
    "          publish_dir: ./_site" ]

/-- The tool-configuration files the script materializes (steps 3–6), in
write order: path and fixed content. -/
def configFiles : List (String × String) :=
  [ (".prettierrc", prettierrcContent),
    (".prettierignore", prettierignoreContent),
    (".eslintrc.cjs", eslintrcCjsContent),
    (".eslintignore", eslintignoreContent),
    (".stylelintrc.json", stylelintrcContent),
    (".stylelintignore", stylelintignoreContent),
    ("lighthouserc.json", lighthousercContent) ]

/-! ## The bootstrap script as a state transformer

The script runs under `set -e`: any failing plain command aborts the run
with that command's exit status.  The only guarded command is
`npx husky add ... || { ... }`, whose failure is swallowed by the fallback
block.  External processes (`npm install`, `npx husky install`,
`npx husky add`) are modelled by their exit codes, supplied in `Env`;
their effects outside the project files the claims mention (dependency
tree, hook-manager bookkeeping) are not modelled.  Directory creation
(`mkdir -p`) always succeeds and is not tracked. -/

/-- Exit codes of the external commands the script invokes. -/
structure Env where
  npmInstallExit : Nat
  huskyInstallExit : Nat
  huskyAddExit : Nat
deriving DecidableEq, Repr

/-- Observable actions of a run, in order of occurrence. -/
inductive Event where
  | npmInstall
  | nodeRewrite
  | huskyInstall
  | huskyAdd
  | fileWrite (path : String)
deriving DecidableEq, Repr

/-- Outcome of a run: final project files, process exit code, the external
actions performed, and the progress lines echoed to stdout. -/
structure RunResult where
  fs : FS
  exitCode : Nat
  events : List Event
  out : List String
deriving DecidableEq, Repr

/-- Steps 3–6 of the script: the seven unconditional `cat >` writes of the
tool configuration files, in source order. -/
def afterConfigs (fs : FS) : FS :=
  fsWrite
    (fsWrite
      (fsWrite
        (fsWrite
          (fsWrite
            (fsWrite
              (fsWrite fs ".prettierrc" (.text prettierrcContent))
              ".prettierignore" (.text prettierignoreContent))
            ".eslintrc.cjs" (.text eslintrcCjsContent))
          ".eslintignore" (.text eslintignoreContent))
        ".stylelintrc.json" (.text stylelintrcContent))
      ".stylelintignore" (.text stylelintignoreContent))
    "lighthouserc.json" (.text lighthousercContent)

/-- File-write events of steps 3–6, in order. -/
def configEvents : List Event :=
  configFiles.map (fun pc => Event.fileWrite pc.1)

/-- Effect of a successful `npx husky add .husky/pre-commit
"npm run precommit"`: the external hook manager materializes the hook file
with its shim header and the given command and marks it executable.  This
is the tool's behavior, not code of this repository; no claim depends on
this branch's file content. -/
def huskyAddOk (fs : FS) : FS :=
  fsChmodX (fsWrite fs ".husky/pre-commit" (.text fallbackHookContent))
    ".husky/pre-commit"

/-- The fallback block of step 8: `cat > .husky/pre-commit << 'EOF' ...`
followed by `chmod +x .husky/pre-commit`. -/
def huskyAddFallback (fs : FS) : FS :=
  fsChmodX (fsWrite fs ".husky/pre-commit" (.text fallbackHookContent))
    ".husky/pre-commit"

/-- Progress lines echoed once the run has passed the hook-setup `echo`. -/
def msgsThroughHusky : List String :=
  [headerMsg, installMsg, prettierMsg, eslintMsg, stylelintMsg,
   lighthouseMsg, pkgScriptsMsg, huskyMsg]

/-- The whole bootstrap script.  Control points, in source order: the
`package.json` precondition (exit 1 when absent); `npm install` (fatal
via `set -e`, propagating its exit status); the seven config writes; the
`node` heredoc (fatal exit 1 when `package.json` cannot be parsed as a
manifest); `npx husky install` (fatal via `set -e`); `npx husky add`
guarded by `|| { fallback }` (its status is swallowed); the workflow
write; the closing echo block. -/
def runSetup (env : Env) (fs0 : FS) : RunResult :=
  if hasFile fs0 "package.json" = false then
    { fs := fs0, exitCode := 1, events := [], out := [headerMsg, noPkgMsg] }
  else if env.npmInstallExit ≠ 0 then
    { fs := fs0, exitCode := env.npmInstallExit, events := [.npmInstall],
      out := [headerMsg, installMsg] }
  else
    let fs1 := afterConfigs fs0
    match lookupKey "package.json" fs1 with
    | some ⟨.manifest scripts others, _⟩ =>
        let fs2 := fsWrite fs1 "package.json"
          (updateScripts (.manifest scripts others))
        if env.huskyInstallExit ≠ 0 then
          { fs := fs2, exitCode := env.huskyInstallExit,
            events := [.npmInstall] ++ configEvents ++
              [.nodeRewrite, .huskyInstall],
            out := msgsThroughHusky }
        else
          let fs3 := if env.huskyAddExit = 0 then huskyAddOk fs2
                     else huskyAddFallback fs2
          let fs4 := fsWrite fs3 ".github/workflows/ci-cd.yml"
            (.text ciCdYmlContent)
          { fs := fs4, exitCode := 0,
            events := [.npmInstall] ++ configEvents ++
              [.nodeRewrite, .huskyInstall, .huskyAdd,
               .fileWrite ".husky/pre-commit",
               .fileWrite ".github/workflows/ci-cd.yml"],
            out := msgsThroughHusky ++ [workflowMsg] ++ doneMsgs }
    | _ =>
        { fs := fs1, exitCode := 1,
          events := [.npmInstall] ++ configEvents ++ [.nodeRewrite],
          out := [headerMsg, installMsg, prettierMsg, eslintMsg,
                  stylelintMsg, lighthouseMsg, pkgScriptsMsg] }

/-- Data stored at a path, ignoring permissions. -/
def dataAt (fs : FS) (p : String) : Option FileData :=
  (lookupKey p fs).map File.data

/-- The `scripts` object of a manifest (`{}` when the field is absent;
text files have no scripts). -/
def manifestScripts : FileData → List (String × String)
  | .manifest s _ => s.getD []
  | .text _ => []

/-- The top-level fields of a manifest other than `scripts`. -/
def manifestOthers : FileData → List (String × String)
  | .manifest _ o => o
  | .text _ => []

/-! ## The generated GitHub Actions pipeline, structurally

Embedding of the workflow written to `.github/workflows/ci-cd.yml`,
together with the fragment of GitHub Actions semantics the claims need:
a job's steps run in sequence and the job succeeds when every step exits
with status 0; a job with a `needs` list runs only after all named jobs
succeeded; a job with an `if: github.ref == '...'` condition runs only
when the triggering ref equals that string. -/

/-- What one workflow step does. -/
inductive StepAction where
  | uses (action : String)
  | run (line : String)
  | runOrEcho (line : String) (msg : String)
deriving DecidableEq, Repr

/-- A named workflow step. -/
structure Step where
  name : String
  action : StepAction
deriving DecidableEq, Repr

/-- Exit status of `a || b` in the shell: `b` runs only when `a` fails. -/
def orElseExit (a b : Nat) : Nat :=
  if a = 0 then 0 else b

/-- Exit status of a step, given an assignment of exit codes to commands
and actions; `echo` always exits 0. -/
def stepExit (env : String → Nat) : StepAction → Nat
  | .uses a => env a
  | .run l => env l
  | .runOrEcho l _ => orElseExit (env l) 0

/-- A workflow job: its name, the jobs it `needs`, the ref required by its
`if: github.ref == '...'` condition (if any), and its steps. -/
structure Job where
  name : String
  needs : List String
  refCond : Option String
  steps : List Step
deriving DecidableEq, Repr

/-- A job succeeds when every one of its steps exits 0. -/
def jobSucceeds (env : String → Nat) (j : Job) : Bool :=
  j.steps.all (fun s => stepExit env s.action == 0)

/-- The final `echo` text of the Lighthouse CI step. -/
def lhciEchoMsg : String := "Lighthouse warnings â€“ check reports"

/-- The Lighthouse CI step of the generated workflow:
`npm run lhci || echo "..."`. -/
def lhciStep : Step :=
  ⟨"Lighthouse CI", .runOrEcho "npm run lhci" lhciEchoMsg⟩

/-- The `build-and-test` job of the generated workflow. -/
def buildAndTestJob : Job where
  name := "build-and-test"
  needs := []
  refCond := none
  steps :=
    [ ⟨"Checkout", .uses "actions/checkout@v4"⟩,
      ⟨"Use Node.js", .uses "actions/setup-node@v4"⟩,
      ⟨"Install dependencies", .run "npm ci"⟩,
      ⟨"Check formatting (Prettier)", .run "npm run format:check"⟩,
      ⟨"Run linters", .run "npm run lint"⟩,
      ⟨"Build Eleventy site", .run "npm run build"⟩,
      lhciStep ]

/-- The `deploy` job of the generated workflow: `needs: build-and-test`
and `if: github.ref == 'refs/heads/main'`. -/
def deployJob : Job where
  name := "deploy"
  needs := ["build-and-test"]
  refCond := some "refs/heads/main"
  steps :=
    [ ⟨"Checkout", .uses "actions/checkout@v4"⟩,
      ⟨"Use Node.js", .uses "actions/setup-node@v4"⟩,
      ⟨"Install dependencies", .run "npm ci"⟩,
      ⟨"Build Eleventy site", .run "npm run build"⟩,
      ⟨"Deploy to GitHub Pages", .uses "peaceiris/actions-gh-pages@v4"⟩ ]

/-- The generated workflow: its two jobs in source order. -/
def ciWorkflow : List Job := [buildAndTestJob, deployJob]

/-- Find a job by name. -/
def findJob (w : List Job) (n : String) : Option Job :=
  w.find? (fun j => j.name == n)

/-- Whether a job executes in a pipeline run triggered on `ref`: all jobs
it `needs` succeeded, and its ref condition (when present) holds. -/
def jobExecutes (env : String → Nat) (ref : String) (w : List Job)
    (j : Job) : Bool :=
  j.needs.all (fun n => ((findJob w n).map (jobSucceeds env)).getD false) &&
    (match j.refCond with
     | none => true
     | some r => ref == r)

/-! ## The Eleventy build configuration variants -/

/-- The `dir` object returned by an Eleventy configuration. -/
structure EleventyDir where
  input : String
  includes : String
  layouts : String
  output : String
deriving DecidableEq, Repr

/-- One variant of the Eleventy configuration: its passthrough-copy
patterns, directory mapping, template formats, and the optional URL base
for sub-path deployment (`pathPre` abbreviates the source key, which adds
a fix suffix). -/
structure EleventyConfig where
  passthroughCopies : List String
  dir : EleventyDir
  templateFormats : List String
  pathPre : Option String
deriving DecidableEq, Repr

/-- First variant in `eleventy.config.js`. -/
def eleventyConfigA : EleventyConfig where
  passthroughCopies := ["src/style.css"]
  dir := ⟨"src", "_includes", "_includes/layouts", "_site"⟩
  templateFormats := ["njk", "md", "html"]
  pathPre := none

/-- Second variant in `eleventy.config.js`. -/
def eleventyConfigB : EleventyConfig where
  passthroughCopies := ["src/style.css", "src/*.png"]
  dir := ⟨"src", "_includes", "_includes/layouts", "_site"⟩
  templateFormats := ["njk", "md", "html"]
  pathPre := some "/bridget-portfolio/"

/-- Variant at the head of the unnamed source file. -/
def eleventyConfigC : EleventyConfig where
  passthroughCopies := ["src/style.css", "src/*.png", "src/CNAME"]
  dir := ⟨"src", "_includes", "_includes/layouts", "_site"⟩
  templateFormats := ["njk", "md", "html"]
  pathPre := none

/-- All configuration variants present in the repository. -/
def eleventyVariants : List EleventyConfig :=
  [eleventyConfigA, eleventyConfigB, eleventyConfigC]

/-- Does string `s` start with `pre`? (Structural definition over the
character list, so concrete instances evaluate in the kernel.) -/
def startsWithStr (s pre : String) : Bool :=
  List.isPrefixOf pre.data s.data

/-- Resolution of an Eleventy directory setting against the input
directory: a relative path is joined under the base; an absolute path
(leading `/`) would escape it. -/
def resolvePath (base rel : String) : String :=
  if startsWithStr rel "/" then rel else base ++ "/" ++ rel

/-- A path lies inside a directory when it extends it past a separator. -/
def isUnderDir (p d : String) : Bool :=
  startsWithStr p (d ++ "/")

/-- The invariant claimed for a configuration variant: includes and
layouts directories are relative paths, layouts is nested under includes,
and both resolve to subdirectories of the input tree. -/
def dirInvariant (c : EleventyConfig) : Bool :=
  !startsWithStr c.dir.includes "/" &&
  !startsWithStr c.dir.layouts "/" &&
  isUnderDir c.dir.layouts c.dir.includes &&
  isUnderDir (resolvePath c.dir.input c.dir.includes) c.dir.input &&
  isUnderDir (resolvePath c.dir.input c.dir.layouts) c.dir.input &&
  isUnderDir (resolvePath c.dir.input c.dir.layouts)
    (resolvePath c.dir.input c.dir.includes)

/-! ## Concrete fixtures used by counterexamples and witnesses -/

/-- A project holding only a minimal manifest (`{"scripts": {}}`). -/
def fsPkgOnly : FS := [("package.json", ⟨.manifest (some []) [], false⟩)]

/-- All external commands succeed. -/
def envOkAll : Env := ⟨0, 0, 0⟩

/-- A project with a manifest and a manually edited formatter config. -/
def fsEdited : FS :=
  [ ("package.json", ⟨.manifest (some []) [], false⟩),
    (".prettierrc", ⟨.text "custom", false⟩) ]

/-- An environment in which `npx husky install` (a step after dependency
installation) exits 3 while everything else succeeds. -/
def envHuskyFail : Env := ⟨0, 3, 0⟩

/-- Exit codes where only the performance audit fails. -/
def envLhciFails : String → Nat := fun s => if s = "npm run lhci" then 7 else 0

/-- A manifest with an empty-string `lint` script and another top-level
field. -/
def pkgWithEmptyLint : FileData :=
  .manifest (some [("lint", "")]) [("name", "bridget-portfolio")]

/-! ## Lemmas about the filesystem primitives -/

theorem lookupKey_fsWrite_self (fs : FS) (p : String) (d : FileData) :
    lookupKey p (fsWrite fs p d) = some ⟨d, fileExec fs p⟩ := by
  induction fs with
  | nil => simp [fsWrite, fileExec, lookupKey]
  | cons hd tl ih =>
      obtain ⟨q, f⟩ := hd
      by_cases hq : q = p
      · subst hq
        simp [fsWrite, fileExec, lookupKey]
      · simp [fsWrite, hq, lookupKey, fileExec, ih]

theorem lookupKey_fsWrite_ne (fs : FS) (p q : String) (d : FileData)
    (h : p ≠ q) : lookupKey p (fsWrite fs q d) = lookupKey p fs := by
  induction fs with
  | nil => simp [fsWrite, lookupKey, Ne.symm h]
  | cons hd tl ih =>
      obtain ⟨r, f⟩ := hd
      by_cases hr : r = q
      · subst hr
        simp [fsWrite, lookupKey, Ne.symm h, h]
      · by_cases hp : r = p
        · subst hp
          simp [fsWrite, hr, lookupKey]
        · simp [fsWrite, hr, lookupKey, hp, ih]

theorem lookupKey_fsChmodX_self (fs : FS) (p : String) :
    lookupKey p (fsChmodX fs p) =
      (lookupKey p fs).map (fun f => ⟨f.data, true⟩) := by
  induction fs with
  | nil => simp [fsChmodX, lookupKey]
  | cons hd tl ih =>
      obtain ⟨q, f⟩ := hd
      by_cases hq : q = p
      · subst hq
        simp [fsChmodX, lookupKey]
      · simp [fsChmodX, hq, lookupKey, ih]

theorem lookupKey_fsChmodX_ne (fs : FS) (p q : String) (h : p ≠ q) :
    lookupKey p (fsChmodX fs q) = lookupKey p fs := by
  induction fs with
  | nil => simp [fsChmodX]
  | cons hd tl ih =>
      obtain ⟨r, f⟩ := hd
      by_cases hr : r = q
      · subst hr
        simp [fsChmodX, lookupKey, Ne.symm h]
      · by_cases hp : r = p
        · subst hp
          simp [fsChmodX, hr, lookupKey]
        · simp [fsChmodX, hr, lookupKey, hp, ih]

/-! ## Lemmas about the scripts merge -/


theorem lookupKey_setScript_self (l : List (String × String)) (k v : String) :
    lookupKey k (setScript l k v) = some v := by
  induction l with
  | nil => simp [setScript, lookupKey]
  | cons hd tl ih =>
      obtain ⟨q, w⟩ := hd
      by_cases hq : q = k
      · subst hq
        simp [setScript, lookupKey]
      · simp [setScript, hq, lookupKey, ih]

theorem lookupKey_setScript_ne (l : List (String × String)) (k k' v : String)
    (h : k' ≠ k) : lookupKey k' (setScript l k v) = lookupKey k' l := by
  induction l with
  | nil => simp [setScript, lookupKey, Ne.symm h]
  | cons hd tl ih =>
      obtain ⟨q, w⟩ := hd
      by_cases hq : q = k
      · subst hq
        simp [setScript, lookupKey, h, Ne.symm h]
      · by_cases hk : q = k'
        · subst hk
          simp [setScript, hq, lookupKey]
        · simp [setScript, hq, lookupKey, hk, ih]

theorem mergeScript_of_ne_empty (l : List (String × String))
    (kv : String × String) (s : String) (hs : lookupKey kv.1 l = some s)
    (hne : s ≠ "") : mergeScript l kv = l := by
  simp [mergeScript, hs, hne]

theorem lookupKey_mergeScript_self (l : List (String × String))
    (kv : String × String) :
    lookupKey kv.1 (mergeScript l kv) = some kv.2 ∨
      lookupKey kv.1 (mergeScript l kv) = lookupKey kv.1 l ∧
        ∃ s, lookupKey kv.1 l = some s ∧ s ≠ "" := by
  unfold mergeScript
  cases hs : lookupKey kv.1 l with
  | none =>
      left
      induction l with
      | nil => simp [lookupKey]
      | cons hd tl ih =>
          obtain ⟨q, w⟩ := hd
          by_cases hq : q = kv.1
          · subst hq
            simp [lookupKey] at hs
          · simp [lookupKey, hq] at hs ⊢
            exact ih hs
  | some s =>
      by_cases hse : s = ""
      · subst hse
        simp [lookupKey_setScript_self]
      · right
        simp [hse, hs]

theorem lookupKey_mergeScript_ne (l : List (String × String))
    (kv : String × String) (k' : String) (h : k' ≠ kv.1) :
    lookupKey k' (mergeScript l kv) = lookupKey k' l := by
  unfold mergeScript
  cases hs : lookupKey kv.1 l with
  | none =>
      induction l with
      | nil => simp [lookupKey, Ne.symm h]
      | cons hd tl ih =>
          obtain ⟨q, w⟩ := hd
          by_cases hq : q = kv.1
          · subst hq
            simp [lookupKey] at hs
          · by_cases hk : q = k'
            · subst hk
              simp [lookupKey]
            · simp [lookupKey, hq, hk] at hs ⊢
              exact ih hs
  | some s =>
      by_cases hse : s = ""
      · simp [hse, lookupKey_setScript_ne _ _ _ _ h]
      · simp [hse]

/-- After one defaulting statement with a non-empty default, the key is
bound to a non-empty value. -/
theorem mergeScript_self_ne_empty (l : List (String × String))
    (kv : String × String) (hv : kv.2 ≠ "") :
    ∃ s, lookupKey kv.1 (mergeScript l kv) = some s ∧ s ≠ "" := by
  rcases lookupKey_mergeScript_self l kv with h | ⟨heq, s, hs, hne⟩
  · exact ⟨kv.2, h, hv⟩
  · exact ⟨s, heq.trans hs, hne⟩

/-- A key bound to a non-empty value keeps that value across any sequence
of defaulting statements. -/
theorem lookupKey_foldl_mergeScript (ds : List (String × String))
    (l : List (String × String)) (k v : String)
    (h : lookupKey k l = some v) (hv : v ≠ "") :
    lookupKey k (ds.foldl mergeScript l) = some v := by
  induction ds generalizing l with
  | nil => simpa using h
  | cons kv rest ih =>
      simp only [List.foldl]
      apply ih
      by_cases hk : k = kv.1
      · rw [mergeScript_of_ne_empty l kv v (hk ▸ h) hv]
        exact h
      · rw [lookupKey_mergeScript_ne l kv k hk]
        exact h

/-- After a sequence of defaulting statements covering key `k` with
non-empty defaults throughout, `k` is bound to a non-empty value. -/
theorem lookupKey_foldl_mergeScript_mem (ds : List (String × String))
    (l : List (String × String)) (kv : String × String)
    (hmem : kv ∈ ds) (hall : ∀ p ∈ ds, p.2 ≠ "") :
    ∃ s, lookupKey kv.1 (ds.foldl mergeScript l) = some s ∧ s ≠ "" := by
  induction ds generalizing l with
  | nil => simp at hmem
  | cons kv' rest ih =>
      simp only [List.foldl]
      rcases List.mem_cons.mp hmem with hhd | htl
      · subst hhd
        obtain ⟨s, hs, hne⟩ :=
          mergeScript_self_ne_empty l kv (hall kv (List.mem_cons_self kv rest))
        exact ⟨s, lookupKey_foldl_mergeScript rest _ _ _ hs hne, hne⟩
      · exact ih (mergeScript l kv') htl
          (fun p hp => hall p (List.mem_cons_of_mem kv' hp))

/-- A sequence of defaulting statements whose keys are all already bound
to non-empty values is the identity. -/
theorem foldl_mergeScript_of_bound (ds : List (String × String))
    (L : List (String × String))
    (h : ∀ kv ∈ ds, ∃ s, lookupKey kv.1 L = some s ∧ s ≠ "") :
    ds.foldl mergeScript L = L := by
  induction ds with
  | nil => rfl
  | cons kv rest ih =>
      obtain ⟨s, hs, hne⟩ := h kv (List.mem_cons_self kv rest)
      simp only [List.foldl, mergeScript_of_ne_empty L kv s hs hne]
      exact ih (fun p hp => h p (List.mem_cons_of_mem kv hp))

/-- The heredoc's scripts merge is idempotent on the scripts object. -/
theorem applyDefaults_idem (l : List (String × String)) :
    applyDefaults (applyDefaults l) = applyDefaults l := by
  unfold applyDefaults
  apply foldl_mergeScript_of_bound
  intro kv hmem
  exact lookupKey_foldl_mergeScript_mem defaultScripts l kv hmem
    (by decide)

/-- The heredoc preserves every scripts entry whose value is non-empty. -/
theorem applyDefaults_preserves (l : List (String × String)) (k v : String)
    (h : lookupKey k l = some v) (hv : v ≠ "") :
    lookupKey k (applyDefaults l) = some v :=
  lookupKey_foldl_mergeScript defaultScripts l k v h hv

/-- The heredoc's manifest rewrite is idempotent. -/
theorem updateScripts_idem (d : FileData) :
    updateScripts (updateScripts d) = updateScripts d := by
  cases d with
  | text s => rfl
  | manifest scripts others =>
      simp [updateScripts, applyDefaults_idem]

/-! ## Lemmas about the config-materialization writes -/

theorem lookupKey_afterConfigs_ne (fs : FS) (p : String)
    (h1 : p ≠ ".prettierrc") (h2 : p ≠ ".prettierignore")
    (h3 : p ≠ ".eslintrc.cjs") (h4 : p ≠ ".eslintignore")
    (h5 : p ≠ ".stylelintrc.json") (h6 : p ≠ ".stylelintignore")
    (h7 : p ≠ "lighthouserc.json") :
    lookupKey p (afterConfigs fs) = lookupKey p fs := by
  simp [afterConfigs, lookupKey_fsWrite_ne, h1, h2, h3, h4, h5, h6, h7]

theorem dataAt_afterConfigs_mem (fs : FS) (p d : String)
    (h : (p, d) ∈ configFiles) :
    dataAt (afterConfigs fs) p = some (.text d) := by
  simp only [configFiles, List.mem_cons, List.not_mem_nil, or_false,
    Prod.mk.injEq] at h
  rcases h with ⟨rfl, rfl⟩ | ⟨rfl, rfl⟩ | ⟨rfl, rfl⟩ | ⟨rfl, rfl⟩ |
    ⟨rfl, rfl⟩ | ⟨rfl, rfl⟩ | ⟨rfl, rfl⟩ <;>
  simp [dataAt, afterConfigs, lookupKey_fsWrite_self, lookupKey_fsWrite_ne]

/-- Config-file paths are disjoint from the paths later steps touch. -/
theorem configFiles_paths_ne (p d : String) (h : (p, d) ∈ configFiles) :
    p ≠ "package.json" ∧ p ≠ ".husky/pre-commit" ∧
      p ≠ ".github/workflows/ci-cd.yml" := by
  simp only [configFiles, List.mem_cons, List.not_mem_nil, or_false,
    Prod.mk.injEq] at h
  rcases h with ⟨rfl, rfl⟩ | ⟨rfl, rfl⟩ | ⟨rfl, rfl⟩ | ⟨rfl, rfl⟩ |
    ⟨rfl, rfl⟩ | ⟨rfl, rfl⟩ | ⟨rfl, rfl⟩ <;>
  refine ⟨by decide, by decide, by decide⟩

/-- Any run that passes the precondition and the dependency installation
leaves every tool-configuration file holding its fixed default content,
whatever happens later. -/
theorem dataAt_runSetup_config (env : Env) (fs : FS) (p d : String)
    (hpkg : hasFile fs "package.json" = true)
    (hnpm : env.npmInstallExit = 0)
    (h : (p, d) ∈ configFiles) :
    dataAt (runSetup env fs).fs p = some (.text d) := by
  obtain ⟨hp1, hp2, hp3⟩ := configFiles_paths_ne p d h
  have hbase := dataAt_afterConfigs_mem fs p d h
  simp only [dataAt] at hbase
  simp only [runSetup, hpkg, hnpm]
  cases hm : lookupKey "package.json" (afterConfigs fs) with
  | none =>
      simp [dataAt, hm, hbase]
  | some f =>
      obtain ⟨fdata, fexec⟩ := f
      cases fdata with
      | text s =>
          simp [dataAt, hm, hbase]
      | manifest scr oth =>
          by_cases hhi : env.huskyInstallExit = 0
          · by_cases hha : env.huskyAddExit = 0
            · simp [dataAt, hm, hhi, hha, huskyAddOk,
                lookupKey_fsWrite_ne, lookupKey_fsChmodX_ne,
                hp1, hp2, hp3, hbase]
            · simp [dataAt, hm, hhi, hha, huskyAddFallback,
                lookupKey_fsWrite_ne, lookupKey_fsChmodX_ne,
                hp1, hp2, hp3, hbase]
          · simp [dataAt, hm, hhi, lookupKey_fsWrite_ne, hp1, hbase]

/-- The fallback block leaves the hook file present, executable, and with
the fallback body. -/
theorem lookupKey_huskyAddFallback_self (fs : FS) :
    lookupKey ".husky/pre-commit" (huskyAddFallback fs) =
      some ⟨.text fallbackHookContent, true⟩ := by
  simp [huskyAddFallback, lookupKey_fsChmodX_self, lookupKey_fsWrite_self]

/-- `a || echo ...` always exits 0. -/
theorem orElseExit_right_zero (a : Nat) : orElseExit a 0 = 0 := by
  unfold orElseExit
  split <;> rfl

/-! ## The claims -/

/-- C1: in every run of the bootstrap script in which `npx husky add`
exits non-zero, the script swallows that status (the run still exits 0),
and the fallback block leaves `.husky/pre-commit` present, executable,
and with content invoking the `precommit` alias via `npm run precommit`. -/
theorem claim_C1 (env : Env) (fs : FS)
    (scr : Option (List (String × String))) (oth : List (String × String))
    (ex : Bool)
    (hpkg : lookupKey "package.json" fs = some ⟨.manifest scr oth, ex⟩)
    (hnpm : env.npmInstallExit = 0) (hhi : env.huskyInstallExit = 0)
    (hadd : env.huskyAddExit ≠ 0) :
    (runSetup env fs).exitCode = 0 ∧
    lookupKey ".husky/pre-commit" (runSetup env fs).fs =
      some ⟨.text fallbackHookContent, true⟩ ∧
    ∃ pre post, fallbackHookContent = pre ++ ("npm run precommit" ++ post) := by
  have hhas : hasFile fs "package.json" = true := by simp [hasFile, hpkg]
  have hm : lookupKey "package.json" (afterConfigs fs) =
      some ⟨.manifest scr oth, ex⟩ := by
    rw [lookupKey_afterConfigs_ne fs _ (by decide) (by decide) (by decide)
      (by decide) (by decide) (by decide) (by decide)]
    exact hpkg
  refine ⟨?_, ?_, ?_⟩
  · simp [runSetup, hhas, hnpm, hm, hhi, hadd]
  · simp [runSetup, hhas, hnpm, hm, hhi, hadd, lookupKey_fsWrite_ne,
      lookupKey_huskyAddFallback_self]
  · exact ⟨"#!/bin/sh\n. \"$(dirname \"$0\")/_/husky.sh\"\n\n", "\n",
      by decide⟩

theorem claim_C1_witness :
    (runSetup ⟨0, 0, 1⟩ fsPkgOnly).exitCode = 0 ∧
    lookupKey ".husky/pre-commit" (runSetup ⟨0, 0, 1⟩ fsPkgOnly).fs =
      some ⟨.text fallbackHookContent, true⟩ ∧
    ∃ pre post, fallbackHookContent = pre ++ ("npm run precommit" ++ post) :=
  claim_C1 ⟨0, 0, 1⟩ fsPkgOnly (some []) [] false (by decide) rfl rfl
    (by decide)


/-- C2 counterexample: a run whose manifest precondition and dependency
installation both succeed still exits non-zero — under `set -e`, the
failure of the later `npx husky install` step aborts the script with that
command's status, contradicting the claim that failures of later steps
never make the exit code non-zero (and that a non-zero code is always 1). -/
theorem claim_C2_cex :
    hasFile fsPkgOnly "package.json" = true ∧
    envHuskyFail.npmInstallExit = 0 ∧
    (runSetup envHuskyFail fsPkgOnly).exitCode = 3 ∧
    (runSetup envHuskyFail fsPkgOnly).exitCode ≠ 0 := by decide

/-- C2 amended: for a parseable manifest, the exit code is 0 unless the
manifest precondition, the dependency installation, or the hook-manager
installation fails; the precondition failure exits 1, while a failing
`npm install` or `npx husky install` aborts the script with that
command's own exit status (`set -e`). -/
theorem claim_C2_amended (env : Env) (fs : FS)
    (hwf : ∀ f, lookupKey "package.json" fs = some f →
      ∃ scr oth, f.data = FileData.manifest scr oth) :
    (runSetup env fs).exitCode =
      if hasFile fs "package.json" = false then 1
      else if env.npmInstallExit ≠ 0 then env.npmInstallExit
      else if env.huskyInstallExit ≠ 0 then env.huskyInstallExit
      else 0 := by
  by_cases hpkg : hasFile fs "package.json" = false
  · simp [runSetup, hpkg]
  · have hpkg' : hasFile fs "package.json" = true := by
      cases hb : hasFile fs "package.json" with
      | false => exact absurd hb hpkg
      | true => rfl
    by_cases hnpm : env.npmInstallExit = 0
    · obtain ⟨f, hf⟩ : ∃ f, lookupKey "package.json" fs = some f := by
        cases hl : lookupKey "package.json" fs with
        | none => simp [hasFile, hl] at hpkg'
        | some f => exact ⟨f, rfl⟩
      obtain ⟨scr, oth, hdata⟩ := hwf f hf
      obtain ⟨fdata, fexec⟩ := f
      simp only at hdata
      subst hdata
      have hm : lookupKey "package.json" (afterConfigs fs) =
          some ⟨.manifest scr oth, fexec⟩ := by
        rw [lookupKey_afterConfigs_ne fs _ (by decide) (by decide) (by decide)
          (by decide) (by decide) (by decide) (by decide)]
        exact hf
      by_cases hhi : env.huskyInstallExit = 0
      · by_cases hha : env.huskyAddExit = 0
        · simp [runSetup, hpkg', hnpm, hm, hhi, hha]
        · simp [runSetup, hpkg', hnpm, hm, hhi, hha]
      · simp [runSetup, hpkg', hnpm, hm, hhi]
    · simp [runSetup, hpkg', hnpm]

theorem claim_C2_amended_witness :
    (runSetup envHuskyFail fsPkgOnly).exitCode = 3 := by
  have h := claim_C2_amended envHuskyFail fsPkgOnly
    (by intro f hf
        simp [fsPkgOnly, lookupKey] at hf
        subst hf
        exact ⟨some [], [], rfl⟩)
  rw [h]
  decide

/-- C3 counterexample: a pre-existing, manually edited `.prettierrc` does
not keep its content across a run — the script overwrites it with the
fixed default. -/
theorem claim_C3_cex :
    dataAt fsEdited ".prettierrc" = some (.text "custom") ∧
    dataAt (runSetup envOkAll fsEdited).fs ".prettierrc" =
      some (.text prettierrcContent) ∧
    dataAt (runSetup envOkAll fsEdited).fs ".prettierrc" ≠
      some (.text "custom") := by decide

/-- C3 amended: the script does not preserve existing tool-configuration
files; every run that reaches config materialization resets each of them
to its fixed default, so content differing from the default is lost. -/
theorem claim_C3_amended (env : Env) (fs : FS) (p d c : String)
    (h : (p, d) ∈ configFiles)
    (hprev : dataAt fs p = some (.text c)) (hne : c ≠ d)
    (hpkg : hasFile fs "package.json" = true)
    (hnpm : env.npmInstallExit = 0) :
    dataAt (runSetup env fs).fs p = some (.text d) ∧
    dataAt (runSetup env fs).fs p ≠ dataAt fs p := by
  have hd := dataAt_runSetup_config env fs p d hpkg hnpm h
  refine ⟨hd, ?_⟩
  rw [hd, hprev]
  simp [Ne.symm hne]

theorem claim_C3_witness :
    dataAt (runSetup envOkAll fsEdited).fs ".prettierrc" =
      some (.text prettierrcContent) ∧
    dataAt (runSetup envOkAll fsEdited).fs ".prettierrc" ≠
      dataAt fsEdited ".prettierrc" :=
  claim_C3_amended envOkAll fsEdited ".prettierrc" prettierrcContent
    "custom" (by decide) (by decide) (by decide) (by decide) rfl

/-- C4: every run that reaches config materialization leaves each of the
formatter, script-linter, style-linter and performance-audit
configuration files and their ignore files equal to its fixed default
content, unconditionally overwriting prior content. -/
theorem claim_C4 (env : Env) (fs : FS) (p d : String)
    (hpkg : hasFile fs "package.json" = true)
    (hnpm : env.npmInstallExit = 0) (h : (p, d) ∈ configFiles) :
    dataAt (runSetup env fs).fs p = some (.text d) :=
  dataAt_runSetup_config env fs p d hpkg hnpm h

theorem claim_C4_witness :
    dataAt (runSetup envOkAll fsPkgOnly).fs ".stylelintrc.json" =
      some (.text stylelintrcContent) :=
  claim_C4 envOkAll fsPkgOnly ".stylelintrc.json" stylelintrcContent
    (by decide) rfl (by decide)

/-- C5 counterexample: an existing `dev` alias bound to the empty string
is overwritten by the registration step (JavaScript falsiness:
`if (!pkg.scripts.dev)` treats `""` as absent), contradicting the claim
that existing entries are never overwritten. -/
theorem claim_C5_cex :
    lookupKey "dev" [("dev", "")] = some "" ∧
    lookupKey "dev" (applyDefaults [("dev", "")]) =
      some "npx eleventy --serve --quiet" ∧
    ("" : String) ≠ "npx eleventy --serve --quiet" := by decide

/-- C5 amended: the registration step assigns an alias only when it is
absent or its current value is the empty string; aliases bound to
non-empty values are never overwritten, and running the step a second
time on its own output produces no change to the scripts object or the
manifest. -/
theorem claim_C5_amended (l : List (String × String)) (k v : String)
    (h : lookupKey k l = some v) (hv : v ≠ "") :
    lookupKey k (applyDefaults l) = some v ∧
    applyDefaults (applyDefaults l) = applyDefaults l ∧
    updateScripts (updateScripts (.manifest (some l) [])) =
      updateScripts (.manifest (some l) []) :=
  ⟨applyDefaults_preserves l k v h hv, applyDefaults_idem l,
    updateScripts_idem _⟩

theorem claim_C5_witness :
    lookupKey "dev" (applyDefaults [("dev", "mine")]) = some "mine" ∧
    applyDefaults (applyDefaults [("dev", "mine")]) =
      applyDefaults [("dev", "mine")] ∧
    updateScripts (updateScripts (.manifest (some [("dev", "mine")]) [])) =
      updateScripts (.manifest (some [("dev", "mine")]) []) :=
  claim_C5_amended [("dev", "mine")] "dev" "mine" (by decide) (by decide)

/-- C6: when `package.json` is absent the script prints the header and the
guidance to initialize a manifest, exits with status 1, runs no external
command, and writes nothing. -/
theorem claim_C6 (env : Env) (fs : FS)
    (h : hasFile fs "package.json" = false) :
    runSetup env fs =
      { fs := fs, exitCode := 1, events := [],
        out := [headerMsg, noPkgMsg] } := by
  simp [runSetup, h]

theorem claim_C6_witness :
    runSetup envOkAll [] =
      { fs := [], exitCode := 1, events := [],
        out := [headerMsg, noPkgMsg] } :=
  claim_C6 envOkAll [] rfl

/-- C7: in the generated pipeline the Lighthouse CI step is
`npm run lhci || echo ...`, so it exits 0 for every exit status of
`npm run lhci`; when the other steps of `build-and-test` succeed, the job
reports overall success regardless of the audit's status. -/
theorem claim_C7 (env : String → Nat)
    (h1 : env "actions/checkout@v4" = 0)
    (h2 : env "actions/setup-node@v4" = 0)
    (h3 : env "npm ci" = 0)
    (h4 : env "npm run format:check" = 0)
    (h5 : env "npm run lint" = 0)
    (h6 : env "npm run build" = 0) :
    stepExit env lhciStep.action = 0 ∧
    jobSucceeds env buildAndTestJob = true := by
  refine ⟨?_, ?_⟩
  · simp [lhciStep, stepExit, orElseExit_right_zero]
  · simp [jobSucceeds, buildAndTestJob, lhciStep, stepExit, h1, h2, h3,
      h4, h5, h6, orElseExit_right_zero]


theorem claim_C7_witness :
    stepExit envLhciFails lhciStep.action = 0 ∧
    jobSucceeds envLhciFails buildAndTestJob = true :=
  claim_C7 envLhciFails rfl rfl rfl rfl rfl rfl

/-- C8: the generated pipeline's `deploy` job executes exactly when the
`build-and-test` job succeeded and the triggering ref is the main branch;
in particular it does not execute when either condition fails. -/
theorem claim_C8 (env : String → Nat) (ref : String) :
    jobExecutes env ref ciWorkflow deployJob = true ↔
      (jobSucceeds env buildAndTestJob = true ∧ ref = "refs/heads/main") := by
  simp [jobExecutes, deployJob, ciWorkflow, findJob, List.find?,
    buildAndTestJob]

/-- C9: in all three variants of the site build configuration the
includes and layouts directories are relative paths, the layouts
directory is nested under the includes directory, and resolving either
against the input directory yields a subdirectory of the source tree. -/
theorem claim_C9 :
    dirInvariant eleventyConfigA = true ∧
    dirInvariant eleventyConfigB = true ∧
    dirInvariant eleventyConfigC = true ∧
    eleventyVariants.all dirInvariant = true := by decide


/-- C10 counterexample: a pre-existing `scripts` entry bound to the empty
string is not preserved — the rewrite replaces `lint: ""` with the
default, contradicting the claim that every pre-existing scripts entry is
preserved unchanged. -/
theorem claim_C10_cex :
    lookupKey "lint" (manifestScripts pkgWithEmptyLint) = some "" ∧
    lookupKey "lint" (manifestScripts (updateScripts pkgWithEmptyLint)) =
      some "npm run lint:js && npm run lint:css" ∧
    ("" : String) ≠ "npm run lint:js && npm run lint:css" := by decide

/-- C10 amended: the manifest rewrite modifies only the `scripts` field —
every other top-level field is carried through unchanged — and every
pre-existing scripts entry with a non-empty value is preserved unchanged
(an entry bound to the empty string may be reset to a default). -/
theorem claim_C10_amended (scr : Option (List (String × String)))
    (oth : List (String × String)) (k v : String)
    (h : lookupKey k (scr.getD []) = some v) (hv : v ≠ "") :
    manifestOthers (updateScripts (.manifest scr oth)) = oth ∧
    lookupKey k (manifestScripts (updateScripts (.manifest scr oth))) =
      some v := by
  refine ⟨rfl, ?_⟩
  simp only [updateScripts, manifestScripts]
  exact applyDefaults_preserves _ k v h hv

theorem claim_C10_witness :
    manifestOthers (updateScripts (.manifest (some [("test", "jest")])
      [("name", "x"), ("version", "1.0.0")])) =
      [("name", "x"), ("version", "1.0.0")] ∧
    lookupKey "test" (manifestScripts (updateScripts
      (.manifest (some [("test", "jest")])
        [("name", "x"), ("version", "1.0.0")]))) = some "jest" :=
  claim_C10_amended (some [("test", "jest")])
    [("name", "x"), ("version", "1.0.0")] "test" "jest" (by decide)
    (by decide)

end Portfolio
